import Mathlib

/-!
Verification of the Reversi Deluxe core against its specification.

The development shallowly embeds the repository's Python code:

* `src/config.py` — numeric configuration constants.
* `src/error_handling.py` — `validate_board_size`, `validate_save_file`,
  `safe_execute`, `handle_file_errors` and the exception taxonomy.
* The Board / AI engine (`src/Reversi.py`) is not part of the available
  sources (only its tests and callers are); those definitions are modelled
  from the specification, as marked in their doc comments.

Python values reaching the validators are embedded as `PyVal`.  Python
booleans are a subclass of `int` (`True == 1`, `False == 0`,
`isinstance(True, int)`), so they are represented by `PyVal.int`; this keeps
Python's `==`/`in`/`isinstance` behaviour on the embedded domain.
-/

/-- Embedding of the Python values that can appear in deserialized save data:
integers (including booleans, which Python treats as integers), strings,
lists, and `None`. -/
inductive PyVal where
  | int (n : Int)
  | str (s : String)
  | list (xs : List PyVal)
  | none

/-- Embedding of a Python `dict` with string keys as an association list;
`lookup` returns the value of the first matching key, `Option.none` when the
key is absent (Python's `in` test / `dict.get`). -/
def lookup (d : List (String × PyVal)) (k : String) : Option PyVal :=
  match d with
  | [] => Option.none
  | (k', v) :: rest => if k' = k then Option.some v else lookup rest k

/-- Python equality test `n == v` between a length (a `Nat`) and an embedded
Python value: true only when `v` is the integer `n` (Python numbers never
equal strings, lists or `None`). -/
def pyEqNat (n : Nat) (v : PyVal) : Bool :=
  match v with
  | PyVal.int m => (n : Int) == m
  | _ => false

/-- Constant `GameConfig.MIN_BOARD_SIZE` from `src/config.py`. -/
def MIN_BOARD_SIZE : Int := 4

/-- Constant `GameConfig.MAX_BOARD_SIZE` from `src/config.py`. -/
def MAX_BOARD_SIZE : Int := 16

/-- Constant `GameConfig.MAX_TRANSPOSITION_SIZE` from `src/config.py`. -/
def MAX_TRANSPOSITION_SIZE : Nat := 10000

/-- Constant `GameConfig.MIN_AI_DEPTH` from `src/config.py`. -/
def MIN_AI_DEPTH : Nat := 1

/-- Constant `GameConfig.MAX_AI_DEPTH` from `src/config.py`. -/
def MAX_AI_DEPTH : Nat := 6

/-- Embedding of `validate_board_size` from `src/error_handling.py`: requires
an `int` (non-integers fail the `isinstance` check and return `False`), then
checks the `[MIN_BOARD_SIZE, MAX_BOARD_SIZE]` range, then evenness. -/
def validate_board_size (v : PyVal) : Bool :=
  match v with
  | PyVal.int n =>
    if n < MIN_BOARD_SIZE ∨ MAX_BOARD_SIZE < n then false
    else if n % 2 ≠ 0 then false
    else true
  | _ => false

/-- Embedding of the per-cell check `cell not in [0, 1, 2]` (negated) from
`validate_save_file` in `src/error_handling.py`. -/
def cellOk (v : PyVal) : Bool :=
  match v with
  | PyVal.int n => n == 0 || n == 1 || n == 2
  | _ => false

/-- Embedding of the check `data.get("to_move") in [1, 2]` from
`validate_save_file` in `src/error_handling.py`. -/
def toMoveOk (v : PyVal) : Bool :=
  match v with
  | PyVal.int n => n == 1 || n == 2
  | _ => false

/-- Embedding of a single grid-row check from `validate_save_file` in
`src/error_handling.py`: the row is a list, its length equals `size`, and
every cell is in {0,1,2}. -/
def rowOk (size : PyVal) (row : PyVal) : Bool :=
  match row with
  | PyVal.list cells => pyEqNat cells.length size && cells.all cellOk
  | _ => false

/-- Embedding of `validate_save_file` from `src/error_handling.py`: the keys
`grid`, `size`, `to_move` must be present; `grid` must be a list whose length
Python-equals the `size` value; each row must be a list of `size` cells with
values in {0,1,2}; and `to_move` must be 1 or 2.  Any failing check returns
`false` (the Python early `return False`). -/
def validate_save_file (d : List (String × PyVal)) : Bool :=
  match lookup d "grid", lookup d "size", lookup d "to_move" with
  | Option.some grid, Option.some size, Option.some toMove =>
    (match grid with
     | PyVal.list rows =>
       pyEqNat rows.length size && rows.all (rowOk size) && toMoveOk toMove
     | _ => false)
  | _, _, _ => false

/-- Embedding of the Python exception classes caught by the helpers in
`src/error_handling.py`; `other` stands for any further `Exception`
subclass. -/
inductive PyExc where
  | fileNotFound (msg : String)
  | permission (msg : String)
  | jsonDecode (msg : String)
  | osError (msg : String)
  | other (msg : String)
deriving DecidableEq

/-- Embedding of a Python callable that either returns normally (`Except.ok`)
or raises an exception (`Except.error`), applied to its argument tuple. -/
def PyCallable (α β : Type) : Type := α → Except PyExc β

/-- Embedding of `safe_execute` from `src/error_handling.py`: call `f` on its
arguments inside `try`; return its result on normal return, and the `default`
on any raised `Exception`. -/
def safe_execute {α β : Type} (f : PyCallable α β) (x : α) (default : β) : β :=
  match f x with
  | Except.ok r => r
  | Except.error _ => default

/-- Embedding of the wrapper produced by the `handle_file_errors` decorator in
`src/error_handling.py`: the body's result on normal return; on
`FileNotFoundError`, `PermissionError`, `json.JSONDecodeError`, `OSError`, or
any other `Exception`, the configured `default_return` (each `except` clause
is matched separately, mirroring the source). -/
def handle_file_errors {α β : Type} (default_return : β) (f : PyCallable α β) : α → β :=
  fun x =>
    match f x with
    | Except.ok r => r
    | Except.error e =>
      match e with
      | PyExc.fileNotFound _ => default_return
      | PyExc.permission _ => default_return
      | PyExc.jsonDecode _ => default_return
      | PyExc.osError _ => default_return
      | PyExc.other _ => default_return

/-- Cell constant `EMPTY = 0` from `src/config.py` (`Colors.EMPTY`). -/
def EMPTY : Nat := 0

/-- Cell constant `BLACK = 1` from `src/config.py` (`Colors.BLACK`). -/
def BLACK : Nat := 1

/-- Cell constant `WHITE = 2` from `src/config.py` (`Colors.WHITE`). -/
def WHITE : Nat := 2

/-- Direction vectors `DIRECTIONS` from `src/config.py`, in source order. -/
def DIRECTIONS : List (Int × Int) :=
  [(-1, -1), (-1, 0), (-1, 1), (0, -1), (0, 1), (1, -1), (1, 0), (1, 1)]

/-- Modelled from the spec: the opponent of a colour (`Black` ↔ `White`);
the Board/AI implementation itself is not among the available sources. -/
def opp (color : Nat) : Nat :=
  if color = BLACK then WHITE else BLACK

/-- Reads a cell of a grid at possibly out-of-range signed coordinates;
`Option.none` models falling off the board edge. -/
def cellAt (g : List (List Nat)) (r c : Int) : Option Nat :=
  if r < 0 ∨ c < 0 then Option.none
  else
    match g.get? r.toNat with
    | Option.some row => row.get? c.toNat
    | Option.none => Option.none

/-- Writes value `v` at row `r`, column `c` of a grid; out-of-range writes
leave the grid unchanged (they never occur on well-formed boards). -/
def setCell (g : List (List Nat)) (r c v : Nat) : List (List Nat) :=
  match g.get? r with
  | Option.some row => g.set r (row.set c v)
  | Option.none => g

/-- Modelled from the spec (§4.1 `legal_moves`): walking one direction from a
candidate cell, collecting the run of opponent discs; the run counts only if
it is terminated by a same-colour disc before the edge, otherwise the walk
yields no flips.  `fuel` bounds the walk length (a run never exceeds the
board size). -/
def walkRun (g : List (List Nat)) (color : Nat) (dr dc : Int) :
    Nat → Int → Int → List (Nat × Nat) → List (Nat × Nat)
  | 0, _, _, _ => []
  | fuel + 1, r, c, acc =>
    match cellAt g r c with
    | Option.none => []
    | Option.some v =>
      if v = opp color then
        walkRun g color dr dc fuel (r + dr) (c + dc) (acc ++ [(r.toNat, c.toNat)])
      else if v = color then acc
      else []

/-- Modelled from the spec (§3 Move): a candidate placement and the cells it
would flip. -/
structure Move where
  row : Nat
  col : Nat
  color : Nat
  flips : List (Nat × Nat)
deriving DecidableEq

/-- Modelled from the spec (§3 Board): grid state, side to move, and the
undo/redo bookkeeping; `history` and `redo_stack` hold `(grid, to_move)`
snapshots, `move_list` logs `(color, row, col)` with `(-1, -1)` for a pass. -/
structure Board where
  size : Nat
  grid : List (List Nat)
  to_move : Nat
  history : List (List (List Nat) × Nat)
  redo_stack : List (List (List Nat) × Nat)
  move_list : List (Nat × Int × Int)
deriving DecidableEq

/-- Modelled from the spec (§4.1 `legal_moves`): the union of per-direction
flip runs across the eight directions for a candidate empty cell. -/
def flipsFor (b : Board) (color : Nat) (r c : Nat) : List (Nat × Nat) :=
  DIRECTIONS.foldl
    (fun acc d =>
      acc ++ walkRun b.grid color d.1 d.2 (b.size + 1) ((r : Int) + d.1) ((c : Int) + d.2) [])
    []

/-- Modelled from the spec (§4.1 `construct`): all cells empty except the
four centre cells in the canonical cross (two diagonal White, two diagonal
Black, as fixed by the repository's tests), Black to move, empty history. -/
def Board.new (size : Nat) : Board :=
  let c := size / 2
  let g0 := List.replicate size (List.replicate size EMPTY)
  let g1 := setCell (setCell (setCell (setCell g0 (c - 1) (c - 1) WHITE) c c WHITE) (c - 1) c BLACK) c (c - 1) BLACK
  { size := size, grid := g1, to_move := BLACK, history := [], redo_stack := [], move_list := [] }

/-- Modelled from the spec (§4.1 `legal_moves`): row-major scan of the empty
cells; a cell is a legal move iff its flip set is non-empty. -/
def Board.legal_moves (b : Board) (color : Nat) : List Move :=
  (List.range b.size).flatMap
    (fun (r : Nat) =>
      (List.range b.size).filterMap
        (fun (c : Nat) =>
          if cellAt b.grid (r : Int) (c : Int) = Option.some EMPTY then
            (match flipsFor b color r c with
             | [] => Option.none
             | fl => Option.some (Move.mk r c color fl))
          else Option.none))

/-- Error taxonomy of the core, from `src/error_handling.py`
(`InvalidMoveError`, `InvalidBoardStateError`). -/
inductive RevError where
  | invalidMove
  | invalidBoardState
deriving DecidableEq

/-- Modelled from the spec (§4.1 `make_move`): fails with `InvalidMoveError`
when the move is not currently legal for `to_move`, leaving the board as is;
on success pushes the `(grid, to_move)` snapshot, places the disc, flips the
flip set, logs the move, toggles `to_move` and clears `redo_stack`. -/
def Board.make_move (b : Board) (m : Move) : Board × Option RevError :=
  if m ∈ b.legal_moves b.to_move then
    let g1 := setCell b.grid m.row m.col m.color
    let g2 := m.flips.foldl (fun g p => setCell g p.1 p.2 m.color) g1
    ({ b with
        grid := g2,
        to_move := opp b.to_move,
        history := (b.grid, b.to_move) :: b.history,
        redo_stack := [],
        move_list := b.move_list ++ [(m.color, (m.row : Int), (m.col : Int))] },
      Option.none)
  else (b, Option.some RevError.invalidMove)

/-- Modelled from the spec (§4.1 `pass_turn`): toggles `to_move`, logs
`(color, -1, -1)`, pushes the snapshot and clears `redo_stack` like
`make_move`. -/
def Board.pass_turn (b : Board) : Board :=
  { b with
      to_move := opp b.to_move,
      history := (b.grid, b.to_move) :: b.history,
      redo_stack := [],
      move_list := b.move_list ++ [(b.to_move, -1, -1)] }

/-- Modelled from the spec (§4.1 `undo`): pops the last history entry,
restores grid and `to_move`, pushes the pre-undo snapshot onto `redo_stack`;
returns `false` and leaves the board unchanged when history is empty.  The
spec describes no `move_list` change on undo. -/
def Board.undo (b : Board) : Board × Bool :=
  match b.history with
  | [] => (b, false)
  | (g, t) :: rest =>
    ({ b with
        grid := g,
        to_move := t,
        history := rest,
        redo_stack := (b.grid, b.to_move) :: b.redo_stack },
      true)

/-- Modelled from the spec (§4.1 `redo`): inverse of `undo` using
`redo_stack`; returns `false` as a no-op when the stack is empty. -/
def Board.redo (b : Board) : Board × Bool :=
  match b.redo_stack with
  | [] => (b, false)
  | (g, t) :: rest =>
    ({ b with
        grid := g,
        to_move := t,
        redo_stack := rest,
        history := (b.grid, b.to_move) :: b.history },
      true)

/-- Modelled from the spec (§4.1 `game_over`): the grid is full, or both
colours have no legal move. -/
def Board.game_over (b : Board) : Bool :=
  b.grid.all (fun row => row.all (fun c => !(c == EMPTY))) ||
    ((b.legal_moves BLACK).isEmpty && (b.legal_moves WHITE).isEmpty)

/-- Counts the cells of a given colour by scanning the grid. -/
def countColor (b : Board) (color : Nat) : Nat :=
  b.grid.foldl (fun acc row => acc + row.countP (fun c => c == color)) 0

/-- Modelled from the spec (§4.1 `score`): `(black_count, white_count)` by
scanning the grid. -/
def Board.score (b : Board) : Nat × Nat :=
  (countColor b BLACK, countColor b WHITE)

/-- Modelled from the spec (§6): the wire representation of a board, with
cells as integers and an informational `version` string
(`GameConfig.SAVE_FILE_VERSION` in `src/config.py`). -/
def Board.serialize (b : Board) : List (String × PyVal) :=
  [("grid", PyVal.list (b.grid.map (fun row => PyVal.list (row.map (fun c => PyVal.int (c : Int)))))),
   ("size", PyVal.int (b.size : Int)),
   ("to_move", PyVal.int (b.to_move : Int)),
   ("version", PyVal.str "2.0")]

/-- Converts a validated wire row back to a row of cells. -/
def rowOfPy (row : PyVal) : List Nat :=
  match row with
  | PyVal.list cells =>
    cells.map (fun c => match c with | PyVal.int k => k.toNat | _ => 0)
  | _ => []

/-- Modelled from the spec (§4.1 / §6 `deserialize`): validates the data with
`validate_save_file` and fails atomically with `InvalidBoardStateError` on
any structural violation; on success rebuilds the board with empty
history/redo/move-list state. -/
def Board.deserialize (d : List (String × PyVal)) : Except RevError Board :=
  if validate_save_file d then
    match lookup d "grid", lookup d "size", lookup d "to_move" with
    | Option.some (PyVal.list rows), Option.some (PyVal.int n), Option.some (PyVal.int t) =>
      Except.ok
        { size := n.toNat,
          grid := rows.map rowOfPy,
          to_move := t.toNat,
          history := [],
          redo_stack := [],
          move_list := [] }
    | _, _, _ => Except.error RevError.invalidBoardState
  else Except.error RevError.invalidBoardState

/-- Modelled from the spec (§4.2 `evaluate`): piece-count differential, a
heavily weighted corner-occupancy term, and a mobility differential, from
`color`'s perspective; the zero-sum weights 1 / 25 / 2 are a documented
implementation choice, as the spec leaves exact weights open. -/
def evaluate (b : Board) (color : Nat) : Int :=
  let n := b.size - 1
  let myCorners :=
    ([(0, 0), (0, n), (n, 0), (n, n)] : List (Nat × Nat)).countP
      (fun p => cellAt b.grid (p.1 : Int) (p.2 : Int) == Option.some color)
  let opCorners :=
    ([(0, 0), (0, n), (n, 0), (n, n)] : List (Nat × Nat)).countP
      (fun p => cellAt b.grid (p.1 : Int) (p.2 : Int) == Option.some (opp color))
  ((countColor b color : Int) - (countColor b (opp color) : Int)) +
    25 * ((myCorners : Int) - (opCorners : Int)) +
    2 * (((b.legal_moves color).length : Int) - ((b.legal_moves (opp color)).length : Int))

/-- Transposition-table representation: a structural fingerprint of the grid
contents plus the side to move, mapped to the cached `(score, depth searched)`
entry (spec §4.3 and §9). -/
abbrev TTable : Type := List ((List (List Nat) × Nat) × (Int × Nat))

/-- Finds the cached entry for a position fingerprint, if present. -/
def tableLookup (t : TTable) (k : List (List Nat) × Nat) : Option (Int × Nat) :=
  match t with
  | [] => Option.none
  | (k', v) :: rest => if k' = k then Option.some v else tableLookup rest k

/-- Mutable search bookkeeping threaded through the recursion: the
transposition table, the visited-node counter, and the configured table
cap. -/
structure SearchState where
  table : TTable
  nodes : Nat
  cap : Nat
deriving DecidableEq

/-- Stores a computed entry, keeping the table within its configured cap (the
spec's invariant that the table size never exceeds the cap). -/
def tableStore (st : SearchState) (k : List (List Nat) × Nat) (v : Int × Nat) : SearchState :=
  if st.table.length < st.cap then { st with table := (k, v) :: st.table } else st

/-- Modelled from the spec (§9): search-time move application on a private
value copy of the board, with no history bookkeeping. -/
def applyMoveB (b : Board) (m : Move) (side : Nat) : Board :=
  { b with
      grid := m.flips.foldl (fun g p => setCell g p.1 p.2 side) (setCell b.grid m.row m.col side),
      to_move := opp side }

/-- Fingerprint of the position reached by playing `m` for `side`. -/
def childKey (b : Board) (side : Nat) (m : Move) : List (List Nat) × Nat :=
  ((applyMoveB b m side).grid, opp side)

/-- Tests whether a move occupies a board corner. -/
def isCorner (b : Board) (m : Move) : Bool :=
  (m.row == 0 || m.row == b.size - 1) && (m.col == 0 || m.col == b.size - 1)

/-- Modelled from the spec (§4.3 move ordering): transposition-table hits
first, then corner moves, then the rest, each group keeping the stable
row-major order. -/
def orderMoves (t : TTable) (b : Board) (side : Nat) (moves : List Move) : List Move :=
  let hits := moves.filter (fun m => (tableLookup t (childKey b side m)).isSome)
  let misses := moves.filter (fun m => !(tableLookup t (childKey b side m)).isSome)
  hits ++ misses.filter (fun m => isCorner b m) ++ misses.filter (fun m => !isCorner b m)

/-- Search bound standing in for infinity in the alpha-beta window; static
evaluations are orders of magnitude smaller. -/
def INF : Int := 1000000

/-- Modelled from the spec (§4.3): scoring one child during the ordered
expansion of a node — skipped entirely once a beta cutoff was recorded
(alpha-beta pruning), otherwise searched with the narrowed window and folded
into the running best value. -/
def childStep (rec : Board → Nat → Nat → Int → Int → SearchState → Int × SearchState)
    (b : Board) (side depth : Nat) (alpha beta : Int)
    (acc : Int × SearchState × Bool) (mv : Move) : Int × SearchState × Bool :=
  if acc.2.2 then acc
  else
    let r := rec (applyMoveB b mv side) (opp side) (depth - 1) (-beta)
      (-(max alpha acc.1)) acc.2.1
    let v := max acc.1 (-r.1)
    (v, r.2, decide (beta ≤ v))

/-- Modelled from the spec (§4.3): the expansion of one interior search node:
depth-limited negamax with alpha-beta pruning, pass handling (a side with no
moves passes at the same depth budget; two consecutive passes evaluate as a
leaf), and a capped transposition store of the computed score.  `rec` is the
search at the next smaller fuel. -/
def negamaxCore (rec : Board → Nat → Nat → Int → Int → SearchState → Int × SearchState)
    (b : Board) (side depth : Nat) (alpha beta : Int) (st2 : SearchState) : Int × SearchState :=
  if depth = 0 ∨ b.game_over then (evaluate b side, st2)
  else
    match b.legal_moves side with
    | [] =>
      if (b.legal_moves (opp side)).isEmpty then (evaluate b side, st2)
      else
        let r := rec { b with to_move := opp side } (opp side) depth (-beta) (-alpha) st2
        (-r.1, tableStore r.2 (b.grid, side) (-r.1, depth))
    | m :: rest =>
      let ordered := orderMoves st2.table b side (m :: rest)
      let res := ordered.foldl (childStep rec b side depth alpha beta) (-INF, st2, false)
      (res.1, tableStore res.2.1 (b.grid, side) (res.1, depth))

/-- Modelled from the spec (§4.3): one search node — count the visit, probe
the transposition table (a hit stored at sufficient depth is reused,
including across `choose` calls), and otherwise expand via `negamaxCore`. -/
def negamaxStep (rec : Board → Nat → Nat → Int → Int → SearchState → Int × SearchState)
    (b : Board) (side depth : Nat) (alpha beta : Int) (st : SearchState) : Int × SearchState :=
  let st1 : SearchState := { st with nodes := st.nodes + 1 }
  match tableLookup st1.table (b.grid, side) with
  | Option.some e => if depth ≤ e.2 then (e.1, st1) else negamaxCore rec b side depth alpha beta st1
  | Option.none => negamaxCore rec b side depth alpha beta st1

/-- Modelled from the spec (§4.3): the fuel-indexed search; fuel strictly
decreases on every recursive call (a pass consumes fuel but not depth, so the
fuel budget is twice the depth plus slack), and exhausted fuel evaluates the
position as a leaf. -/
def negamax : Nat → Board → Nat → Nat → Int → Int → SearchState → Int × SearchState :=
  fun fuel =>
    Nat.rec (motive := fun _ => Board → Nat → Nat → Int → Int → SearchState → Int × SearchState)
      (fun b side _ _ _ st => (evaluate b side, { st with nodes := st.nodes + 1 }))
      (fun _ ih => negamaxStep ih)
      fuel

/-- Modelled from the spec (§4.3 `choose`): scores each remaining root move
with a full-window search, keeping the running best score and the list of
moves tied for it (for randomized tie-breaking). -/
def searchRoot (fuel : Nat) (b : Board) (color : Nat) (depth : Nat) :
    List Move → SearchState → Int → List Move → SearchState × Int × List Move
  | [], st, best, bests => (st, best, bests)
  | m :: rest, st, best, bests =>
    let r := negamax fuel (applyMoveB b m color) (opp color) (depth - 1) (-INF) INF st
    if best < -r.1 then searchRoot fuel b color depth rest r.2 (-r.1) [m]
    else if -r.1 = best then searchRoot fuel b color depth rest r.2 best (bests ++ [m])
    else searchRoot fuel b color depth rest r.2 best bests

/-- Modelled from the spec (§3 AI): search depth, transposition table,
diagnostic node counter, seeded randomness (embedded as a seed consumed for
tie-breaking), and the configured table cap. -/
structure AI where
  max_depth : Nat
  transposition_table : TTable
  nodes_searched : Nat
  seed : Nat
  max_table : Nat
deriving DecidableEq

/-- Modelled from the spec (§6 `AI(max_depth)`): fresh AI with an empty
table, zeroed diagnostics, and the default transposition cap from
`src/config.py`. -/
def AI.new (max_depth : Nat) : AI :=
  { max_depth := max_depth, transposition_table := [], nodes_searched := 0,
    seed := 0, max_table := MAX_TRANSPOSITION_SIZE }

/-- Modelled from the spec (§4.3 `choose`): clears the transposition table
wholesale at the start of the call when its size exceeded the cap, resets
`nodes_searched` to 0, returns `Option.none` when `color` has no legal move,
and otherwise searches the ordered legal moves to `max_depth` plies and picks
among the tied best moves using the seeded randomness source. -/
def AI.choose (ai : AI) (b : Board) (color : Nat) : AI × Option Move :=
  let table0 := if ai.max_table < ai.transposition_table.length then ([] : TTable)
    else ai.transposition_table
  let st0 : SearchState := { table := table0, nodes := 0, cap := ai.max_table }
  match b.legal_moves color with
  | [] => ({ ai with transposition_table := table0, nodes_searched := 0 }, Option.none)
  | m :: rest =>
    let fuel := 2 * ai.max_depth + 2
    match orderMoves table0 b color (m :: rest) with
    | [] => ({ ai with transposition_table := table0, nodes_searched := 0 }, Option.some m)
    | m0 :: restOrd =>
      let r0 := negamax fuel (applyMoveB b m0 color) (opp color) (ai.max_depth - 1) (-INF) INF st0
      let res := searchRoot fuel b color ai.max_depth restOrd r0.2 (-r0.1) [m0]
      let pick := res.2.2.getD (ai.seed % res.2.2.length) m0
      ({ ai with transposition_table := res.1.table, nodes_searched := res.1.nodes },
        Option.some pick)

/-- Save data with a valid 3×3 grid and `size = 3`: structurally consistent,
but 3 is not an even board size in `[4, 16]`. -/
def badSizeData : List (String × PyVal) :=
  [("grid", PyVal.list
      [PyVal.list [PyVal.int 0, PyVal.int 0, PyVal.int 0],
       PyVal.list [PyVal.int 0, PyVal.int 1, PyVal.int 2],
       PyVal.list [PyVal.int 0, PyVal.int 2, PyVal.int 1]]),
   ("size", PyVal.int 3),
   ("to_move", PyVal.int 1)]

/-- Save data with an empty grid and `size = 0`: structurally consistent, but
0 is not a board size in `[4, 16]`. -/
def emptySizeData : List (String × PyVal) :=
  [("grid", PyVal.list []), ("size", PyVal.int 0), ("to_move", PyVal.int 1)]

/-- Sample embedded callable: raises on input 0, returns its successor
otherwise. -/
def sampleCall : PyCallable Nat Nat :=
  fun n => if n = 0 then Except.error (PyExc.other "boom") else Except.ok (n + 1)

/-- Completely filled 4×4 board: neither colour has a legal move. -/
def fullBoard4 : Board :=
  { size := 4, grid := List.replicate 4 (List.replicate 4 BLACK), to_move := BLACK,
    history := [], redo_stack := [], move_list := [] }

/-- AI whose transposition table was driven to 15000 dummy entries, past the
default cap of 10000 (the scenario of `test_transposition_table_cleared`). -/
def overfullAI : AI :=
  { max_depth := 1, transposition_table := List.replicate 15000 (([], BLACK), (0, 0)),
    nodes_searched := 0, seed := 0, max_table := MAX_TRANSPOSITION_SIZE }

/-- Fixed non-trivial 4×4 position used for the depth-monotonicity property:
three empty cells, three legal Black moves, game not over. -/
def endgamePos : Board :=
  { size := 4,
    grid := [[0, 2, 1, 1], [2, 2, 2, 1], [1, 2, 2, 0], [1, 1, 2, 0]],
    to_move := BLACK, history := [], redo_stack := [], move_list := [] }

/-- Nodes searched by a fresh AI of the given depth on the fixed non-trivial
position. -/
def nodesAtDepth (d : Nat) : Nat :=
  ((AI.new d).choose endgamePos BLACK).1.nodes_searched

theorem cellOk_iff (v : PyVal) :
    cellOk v = true ↔ (v = PyVal.int 0 ∨ v = PyVal.int 1 ∨ v = PyVal.int 2) := by
  cases v <;> simp [cellOk]
  tauto

theorem toMoveOk_iff (v : PyVal) :
    toMoveOk v = true ↔ (v = PyVal.int 1 ∨ v = PyVal.int 2) := by
  cases v <;> simp [toMoveOk]

theorem rowOk_iff (n : Int) (row : PyVal) :
    rowOk (PyVal.int n) row = true ↔
      (∃ cells : List PyVal, row = PyVal.list cells ∧ (cells.length : Int) = n ∧
        ∀ c ∈ cells, c = PyVal.int 0 ∨ c = PyVal.int 1 ∨ c = PyVal.int 2) := by
  cases row <;> simp [rowOk, pyEqNat, List.all_eq_true, cellOk_iff]

/-- C1: `validate_save_file` accepts exactly the mappings that carry the keys
`grid`, `size`, `to_move`, whose `grid` is a list of exactly `size` rows of
exactly `size` cells each with values in {0,1,2}, and whose `to_move` is 1 or
2; any violation is rejected. -/
theorem validate_save_file_iff (d : List (String × PyVal)) :
    validate_save_file d = true ↔
      (∃ (rows : List PyVal) (n : Int) (t : PyVal),
        lookup d "grid" = Option.some (PyVal.list rows) ∧
        lookup d "size" = Option.some (PyVal.int n) ∧
        lookup d "to_move" = Option.some t ∧
        (rows.length : Int) = n ∧
        (∀ row ∈ rows, ∃ cells : List PyVal,
          row = PyVal.list cells ∧ (cells.length : Int) = n ∧
          ∀ c ∈ cells, c = PyVal.int 0 ∨ c = PyVal.int 1 ∨ c = PyVal.int 2) ∧
        (t = PyVal.int 1 ∨ t = PyVal.int 2)) := by
  cases hg : lookup d "grid" with
  | none => simp [validate_save_file, hg]
  | some gv =>
    cases hs : lookup d "size" with
    | none => simp [validate_save_file, hg, hs]
    | some sv =>
      cases ht : lookup d "to_move" with
      | none => simp [validate_save_file, hg, hs, ht]
      | some tv =>
        cases gv with
        | list rows =>
          cases sv with
          | int n =>
            simp [validate_save_file, hg, hs, ht, pyEqNat, List.all_eq_true,
              rowOk_iff, toMoveOk_iff]
            tauto
          | str s => simp [validate_save_file, hg, hs, ht, pyEqNat]
          | list xs => simp [validate_save_file, hg, hs, ht, pyEqNat]
          | none => simp [validate_save_file, hg, hs, ht, pyEqNat]
        | int k => simp [validate_save_file, hg, hs, ht]
        | str s => simp [validate_save_file, hg, hs, ht]
        | none => simp [validate_save_file, hg, hs, ht]

/-- C2 counterexample: a mapping whose `size` is 3 — not an even integer in
[4,16] — with a structurally consistent 3×3 grid is not rejected: save-file
validation returns `true` (not `False` as claimed) and deserialization
succeeds with a 3×3 board instead of failing. -/
theorem validate_save_file_accepts_size_three :
    validate_save_file badSizeData = true ∧
    Board.deserialize badSizeData =
      Except.ok
        { size := 3, grid := [[0, 0, 0], [0, 1, 2], [0, 2, 1]], to_move := 1,
          history := [], redo_stack := [], move_list := [] } := by
  constructor
  · rfl
  · rfl

/-- C2 amended: save-file validation checks only structural consistency and
does not enforce that `size` is an even integer in [4,16]; structurally
consistent data with such a size (for example `size = 0` with an empty grid)
is accepted by both `validate_save_file` and `deserialize`, while the size
domain itself is enforced separately by `validate_board_size`, which rejects
0 and 3. -/
theorem size_domain_enforced_only_by_validate_board_size :
    validate_save_file emptySizeData = true ∧
    Board.deserialize emptySizeData =
      Except.ok
        { size := 0, grid := [], to_move := 1,
          history := [], redo_stack := [], move_list := [] } ∧
    validate_board_size (PyVal.int 0) = false ∧
    validate_board_size (PyVal.int 3) = false := by
  refine ⟨rfl, rfl, rfl, rfl⟩

/-- C9: `validate_board_size` returns `true` exactly on integer sizes that
are even and within [4,16] — equivalently, exactly on the seven supported
sizes {4,6,8,10,12,14,16} — and returns `false` on every other embedded
Python value rather than raising. -/
theorem validate_board_size_iff (v : PyVal) :
    (validate_board_size v = true ↔
      ∃ n : Int, v = PyVal.int n ∧ 4 ≤ n ∧ n ≤ 16 ∧ n % 2 = 0) ∧
    (validate_board_size v = true ↔
      v ∈ [PyVal.int 4, PyVal.int 6, PyVal.int 8, PyVal.int 10, PyVal.int 12,
           PyVal.int 14, PyVal.int 16]) := by
  have key : ∀ n : Int, validate_board_size (PyVal.int n) = true ↔
      (4 ≤ n ∧ n ≤ 16 ∧ n % 2 = 0) := by
    intro n
    show (if n < MIN_BOARD_SIZE ∨ MAX_BOARD_SIZE < n then false
      else if n % 2 ≠ 0 then false else true) = true ↔ (4 ≤ n ∧ n ≤ 16 ∧ n % 2 = 0)
    rw [show MIN_BOARD_SIZE = (4 : Int) from rfl, show MAX_BOARD_SIZE = (16 : Int) from rfl]
    constructor
    · intro h
      by_cases h1 : n < 4 ∨ 16 < n
      · rw [if_pos h1] at h; exact absurd h (by simp)
      · rw [if_neg h1] at h
        by_cases h2 : n % 2 ≠ 0
        · rw [if_pos h2] at h; exact absurd h (by simp)
        · omega
    · intro h
      rw [if_neg (show ¬(n < 4 ∨ 16 < n) by omega),
        if_neg (show ¬(n % 2 ≠ 0) by omega)]
  cases v with
  | int n =>
    constructor
    · rw [key n]
      constructor
      · intro h; exact ⟨n, rfl, h⟩
      · rintro ⟨m, hm, h⟩; cases hm; exact h
    · rw [key n]
      simp only [List.mem_cons, List.not_mem_nil, or_false, PyVal.int.injEq]
      constructor
      · rintro ⟨h4, h16, h2⟩
        interval_cases n <;> omega
      · intro h
        rcases h with rfl | rfl | rfl | rfl | rfl | rfl | rfl <;> norm_num
  | str s => simp [validate_board_size]
  | list xs => simp [validate_board_size]
  | none => simp [validate_board_size]

/-- C10: the error-handling helper layer never propagates exceptions from the
wrapped callable — `safe_execute` returns the callable's result on normal
return and the supplied default on any raised exception, and a
`handle_file_errors`-wrapped callable returns its configured default instead
of raising for every exception class the decorator catches. -/
theorem error_helpers_never_propagate {α β : Type} (f : PyCallable α β) (x : α) (d : β) :
    (∀ r : β, f x = Except.ok r → safe_execute f x d = r) ∧
    (∀ e : PyExc, f x = Except.error e → safe_execute f x d = d) ∧
    (∀ r : β, f x = Except.ok r → handle_file_errors d f x = r) ∧
    (∀ e : PyExc, f x = Except.error e → handle_file_errors d f x = d) := by
  refine ⟨?_, ?_, ?_, ?_⟩
  · intro r h; simp [safe_execute, h]
  · intro e h; simp [safe_execute, h]
  · intro r h; simp [handle_file_errors, h]
  · intro e h; cases e <;> simp [handle_file_errors, h]

/-- Witness for C10 at a concrete callable: the wrapped result on a normal
return, and the defaults on a raise. -/
theorem error_helpers_never_propagate_witness :
    safe_execute sampleCall 1 0 = 2 ∧
    safe_execute sampleCall 0 7 = 7 ∧
    handle_file_errors 9 sampleCall 1 = 2 ∧
    handle_file_errors 9 sampleCall 0 = 9 :=
  ⟨(error_helpers_never_propagate sampleCall 1 0).1 2 rfl,
   (error_helpers_never_propagate sampleCall 0 7).2.1 (PyExc.other "boom") rfl,
   (error_helpers_never_propagate sampleCall 1 9).2.2.1 2 rfl,
   (error_helpers_never_propagate sampleCall 0 9).2.2.2 (PyExc.other "boom") rfl⟩

/-- C3: when a move is not currently legal for `to_move`, `make_move` reports
`InvalidMoveError` and performs no mutation — grid, `to_move`, history,
redo stack and move list are all exactly as before the failed call. -/
theorem make_move_illegal_no_mutation (b : Board) (m : Move)
    (h : m ∉ b.legal_moves b.to_move) :
    (b.make_move m).1.grid = b.grid ∧
    (b.make_move m).1.to_move = b.to_move ∧
    (b.make_move m).1.history = b.history ∧
    (b.make_move m).1.redo_stack = b.redo_stack ∧
    (b.make_move m).1.move_list = b.move_list ∧
    (b.make_move m).2 = Option.some RevError.invalidMove := by
  simp [Board.make_move, h]

/-- Witness for C3: placing at the occupied corner-adjacent cell (0,0) is not
legal on the initial 8×8 board, and the failed call mutates nothing. -/
theorem make_move_illegal_no_mutation_witness :
    ((Board.new 8).make_move (Move.mk 0 0 BLACK [])).1.grid = (Board.new 8).grid ∧
    ((Board.new 8).make_move (Move.mk 0 0 BLACK [])).1.to_move = (Board.new 8).to_move ∧
    ((Board.new 8).make_move (Move.mk 0 0 BLACK [])).1.history = (Board.new 8).history ∧
    ((Board.new 8).make_move (Move.mk 0 0 BLACK [])).1.redo_stack = (Board.new 8).redo_stack ∧
    ((Board.new 8).make_move (Move.mk 0 0 BLACK [])).1.move_list = (Board.new 8).move_list ∧
    ((Board.new 8).make_move (Move.mk 0 0 BLACK [])).2 = Option.some RevError.invalidMove :=
  make_move_illegal_no_mutation (Board.new 8) (Move.mk 0 0 BLACK []) (by decide)

/-- C4: applying a currently legal move and then undoing restores the exact
prior grid and side to move and reports success, and `undo` on an empty
history returns false and leaves the board unchanged. -/
theorem make_move_then_undo_restores :
    (∀ (b : Board) (m : Move), m ∈ b.legal_moves b.to_move →
      ((b.make_move m).1.undo).1.grid = b.grid ∧
      ((b.make_move m).1.undo).1.to_move = b.to_move ∧
      ((b.make_move m).1.undo).2 = true) ∧
    (∀ b : Board, b.history = [] → b.undo = (b, false)) := by
  constructor
  · intro b m h
    simp [Board.make_move, h, Board.undo]
  · intro b h
    simp [Board.undo, h]

/-- Witness for C4: the first legal opening move on the initial 8×8 board,
undone, restores the initial grid and Black to move; and undoing the fresh
board (empty history) is a refused no-op. -/
theorem make_move_then_undo_restores_witness :
    (((Board.new 8).make_move (Move.mk 2 3 BLACK [(3, 3)])).1.undo).1.grid = (Board.new 8).grid ∧
    (((Board.new 8).make_move (Move.mk 2 3 BLACK [(3, 3)])).1.undo).1.to_move = (Board.new 8).to_move ∧
    (((Board.new 8).make_move (Move.mk 2 3 BLACK [(3, 3)])).1.undo).2 = true ∧
    (Board.new 8).undo = (Board.new 8, false) :=
  ⟨(make_move_then_undo_restores.1 (Board.new 8) (Move.mk 2 3 BLACK [(3, 3)]) (by decide)).1,
   (make_move_then_undo_restores.1 (Board.new 8) (Move.mk 2 3 BLACK [(3, 3)]) (by decide)).2.1,
   (make_move_then_undo_restores.1 (Board.new 8) (Move.mk 2 3 BLACK [(3, 3)]) (by decide)).2.2,
   make_move_then_undo_restores.2 (Board.new 8) rfl⟩

theorem orderMoves_subset (t : TTable) (b : Board) (side : Nat) (ms : List Move)
    (x : Move) (h : x ∈ orderMoves t b side ms) : x ∈ ms := by
  unfold orderMoves at h
  rcases List.mem_append.mp h with h' | h'
  · rcases List.mem_append.mp h' with h'' | h''
    · exact List.mem_of_mem_filter h''
    · exact List.mem_of_mem_filter (List.mem_of_mem_filter h'')
  · exact List.mem_of_mem_filter (List.mem_of_mem_filter h')

theorem getD_mem_or_eq (l : List Move) (n : Nat) (d : Move) :
    l.getD n d ∈ l ∨ l.getD n d = d := by
  rw [List.getD_eq_getElem?_getD, ← List.get?_eq_getElem?]
  cases h : l.get? n with
  | none => right; rfl
  | some a => left; simpa using List.get?_mem h

theorem searchRoot_mem (fuel : Nat) (b : Board) (color depth : Nat) :
    ∀ (ms : List Move) (st : SearchState) (best : Int) (bests : List Move) (x : Move),
      x ∈ (searchRoot fuel b color depth ms st best bests).2.2 → x ∈ bests ∨ x ∈ ms := by
  intro ms
  induction ms with
  | nil =>
    intro st best bests x h
    simp only [searchRoot] at h
    exact Or.inl h
  | cons m rest ih =>
    intro st best bests x h
    simp only [searchRoot] at h
    split at h
    · rcases ih _ _ _ _ h with h' | h'
      · simp only [List.mem_singleton] at h'
        exact Or.inr (h' ▸ List.mem_cons_self m rest)
      · exact Or.inr (List.mem_cons_of_mem m h')
    · split at h
      · rcases ih _ _ _ _ h with h' | h'
        · rcases List.mem_append.mp h' with h'' | h''
          · exact Or.inl h''
          · simp only [List.mem_singleton] at h''
            exact Or.inr (h'' ▸ List.mem_cons_self m rest)
        · exact Or.inr (List.mem_cons_of_mem m h')
      · rcases ih _ _ _ _ h with h' | h'
        · exact Or.inl h'
        · exact Or.inr (List.mem_cons_of_mem m h')

theorem pick_mem (t : TTable) (b : Board) (color : Nat) (ms : List Move)
    (fuel depth seed : Nat) (st : SearchState) (best : Int) (mo : Move) (restOrd : List Move)
    (ho : orderMoves t b color ms = mo :: restOrd) :
    ((searchRoot fuel b color depth restOrd st best [mo]).2.2).getD
      (seed % ((searchRoot fuel b color depth restOrd st best [mo]).2.2).length) mo ∈ ms := by
  have hmo : mo ∈ ms :=
    orderMoves_subset t b color ms mo (by rw [ho]; exact List.mem_cons_self mo restOrd)
  rcases getD_mem_or_eq ((searchRoot fuel b color depth restOrd st best [mo]).2.2)
      (seed % ((searchRoot fuel b color depth restOrd st best [mo]).2.2).length) mo
    with h' | h'
  · rcases searchRoot_mem fuel b color depth restOrd st best [mo] _ h' with h1 | h1
    · simp only [List.mem_singleton] at h1
      rw [h1]; exact hmo
    · exact orderMoves_subset t b color ms _ (by rw [ho]; exact List.mem_cons_of_mem mo h1)
  · rw [h']; exact hmo

/-- C5: `choose` is total on the embedded model (it never raises); it returns
`Option.none` exactly when `legal_moves(color)` is empty, and any move it
returns is a member of `legal_moves(color)`. -/
theorem choose_returns_legal_move (ai : AI) (b : Board) (color : Nat) :
    ((ai.choose b color).2 = Option.none ↔ b.legal_moves color = []) ∧
    (∀ m : Move, (ai.choose b color).2 = Option.some m → m ∈ b.legal_moves color) := by
  cases hm : b.legal_moves color with
  | nil =>
    constructor
    · simp [AI.choose, hm]
    · intro m h
      simp [AI.choose, hm] at h
  | cons m0 rest =>
    cases ho : orderMoves
        (if ai.max_table < ai.transposition_table.length then [] else ai.transposition_table)
        b color (m0 :: rest) with
    | nil =>
      constructor
      · simp [AI.choose, hm, ho]
      · intro m h
        simp [AI.choose, hm, ho] at h
        rw [← h]
        exact List.mem_cons_self m0 rest
    | cons mo restOrd =>
      constructor
      · simp [AI.choose, hm, ho]
      · intro m h
        simp only [AI.choose, hm, ho] at h
        simp only [Option.some.injEq] at h
        rw [← h]
        exact pick_mem _ b color (m0 :: rest) _ _ ai.seed _ _ mo restOrd ho

/-- Witness for C5: on the initial 4×4 board the depth-1 AI picks the move at
(0,1) flipping (1,1), and that move is indeed among Black's legal moves. -/
theorem choose_returns_legal_move_witness :
    ((AI.new 1).choose (Board.new 4) BLACK).2 = Option.some (Move.mk 0 1 BLACK [(1, 1)]) ∧
    Move.mk 0 1 BLACK [(1, 1)] ∈ (Board.new 4).legal_moves BLACK :=
  ⟨by decide,
   (choose_returns_legal_move (AI.new 1) (Board.new 4) BLACK).2
     (Move.mk 0 1 BLACK [(1, 1)]) (by decide)⟩

theorem foldl_preserve {γ δ : Type} (P : γ → Prop) (f : γ → δ → γ)
    (hf : ∀ a x, P a → P (f a x)) : ∀ (l : List δ) (a : γ), P a → P (l.foldl f a) := by
  intro l
  induction l with
  | nil => intro a h; exact h
  | cons x xs ih => intro a h; exact ih (f a x) (hf a x h)

theorem tableStore_inv (st : SearchState) (k : List (List Nat) × Nat) (v : Int × Nat)
    (C : Nat) (hcap : st.cap = C) (h : st.table.length ≤ C) :
    (tableStore st k v).table.length ≤ C ∧ (tableStore st k v).cap = C := by
  unfold tableStore
  split
  · next hlt =>
    constructor
    · simp only [List.length_cons]
      omega
    · exact hcap
  · exact ⟨h, hcap⟩

theorem negamaxCore_inv
    (rec : Board → Nat → Nat → Int → Int → SearchState → Int × SearchState)
    (C : Nat)
    (hrec : ∀ (b : Board) (side depth : Nat) (alpha beta : Int) (st : SearchState),
      st.cap = C → st.table.length ≤ C →
      (rec b side depth alpha beta st).2.table.length ≤ C ∧
      (rec b side depth alpha beta st).2.cap = C)
    (b : Board) (side depth : Nat) (alpha beta : Int) (st2 : SearchState)
    (hcap : st2.cap = C) (h : st2.table.length ≤ C) :
    (negamaxCore rec b side depth alpha beta st2).2.table.length ≤ C ∧
    (negamaxCore rec b side depth alpha beta st2).2.cap = C := by
  have hfold :
      ∀ (l : List Move) (a : Int × SearchState × Bool),
        (a.2.1.table.length ≤ C ∧ a.2.1.cap = C) →
        ((l.foldl (childStep rec b side depth alpha beta) a).2.1.table.length ≤ C ∧
         (l.foldl (childStep rec b side depth alpha beta) a).2.1.cap = C) := by
    intro l
    refine foldl_preserve
      (fun (acc : Int × SearchState × Bool) => acc.2.1.table.length ≤ C ∧ acc.2.1.cap = C)
      _ ?_ l
    intro a x ha
    unfold childStep
    by_cases hd : a.2.2 = true
    · rw [if_pos hd]
      exact ha
    · rw [if_neg hd]
      exact (hrec (applyMoveB b x side) (opp side) (depth - 1) (-beta)
        (-(max alpha a.1)) a.2.1 ha.2 ha.1 : _)
  unfold negamaxCore
  split
  · exact ⟨h, hcap⟩
  · cases hml : b.legal_moves side with
    | nil =>
      by_cases hemp : (b.legal_moves (opp side)).isEmpty = true
      · rw [if_pos hemp]
        exact ⟨h, hcap⟩
      · rw [if_neg hemp]
        have hr := hrec { b with to_move := opp side } (opp side) depth (-beta) (-alpha) st2
          hcap h
        exact tableStore_inv _ _ _ C hr.2 hr.1
    | cons m rest =>
      have hres := hfold (orderMoves st2.table b side (m :: rest)) (-INF, st2, false) ⟨h, hcap⟩
      exact tableStore_inv _ _ _ C hres.2 hres.1

theorem negamax_table_inv (C : Nat) :
    ∀ (fuel : Nat) (b : Board) (side depth : Nat) (alpha beta : Int) (st : SearchState),
      st.cap = C → st.table.length ≤ C →
      (negamax fuel b side depth alpha beta st).2.table.length ≤ C ∧
      (negamax fuel b side depth alpha beta st).2.cap = C := by
  intro fuel
  induction fuel with
  | zero =>
    intro b side depth alpha beta st hcap h
    exact ⟨h, hcap⟩
  | succ fuel ih =>
    intro b side depth alpha beta st hcap h
    show (negamaxStep (negamax fuel) b side depth alpha beta st).2.table.length ≤ C ∧
      (negamaxStep (negamax fuel) b side depth alpha beta st).2.cap = C
    unfold negamaxStep
    have hst1 : ({ st with nodes := st.nodes + 1 } : SearchState).table.length ≤ C := h
    have hst1c : ({ st with nodes := st.nodes + 1 } : SearchState).cap = C := hcap
    cases hlk : tableLookup ({ st with nodes := st.nodes + 1 } : SearchState).table (b.grid, side) with
    | none =>
      simp only [hlk]
      exact negamaxCore_inv (negamax fuel) C ih b side depth alpha beta _ hst1c hst1
    | some e =>
      simp only [hlk]
      split
      · exact ⟨hst1, hst1c⟩
      · exact negamaxCore_inv (negamax fuel) C ih b side depth alpha beta _ hst1c hst1

theorem searchRoot_table_inv (C : Nat) (fuel : Nat) (b : Board) (color depth : Nat) :
    ∀ (ms : List Move) (st : SearchState) (best : Int) (bests : List Move),
      st.cap = C → st.table.length ≤ C →
      (searchRoot fuel b color depth ms st best bests).1.table.length ≤ C ∧
      (searchRoot fuel b color depth ms st best bests).1.cap = C := by
  intro ms
  induction ms with
  | nil =>
    intro st best bests hcap h
    exact ⟨h, hcap⟩
  | cons m rest ih =>
    intro st best bests hcap h
    have hr := negamax_table_inv C fuel (applyMoveB b m color) (opp color) (depth - 1)
      (-INF) INF st hcap h
    simp only [searchRoot]
    split
    · exact ih _ _ _ hr.2 hr.1
    · split
      · exact ih _ _ _ hr.2 hr.1
      · exact ih _ _ _ hr.2 hr.1

/-- C6: when the transposition table exceeded the configured cap, it is
cleared wholesale at the start of the next `choose` call, so the post-call
table is at or below the cap and strictly smaller than the pre-call table. -/
theorem transposition_table_capped (ai : AI) (b : Board) (color : Nat)
    (h : ai.max_table < ai.transposition_table.length) :
    (ai.choose b color).1.transposition_table.length ≤ ai.max_table ∧
    (ai.choose b color).1.transposition_table.length < ai.transposition_table.length := by
  have h0 : (if ai.max_table < ai.transposition_table.length then ([] : TTable)
      else ai.transposition_table) = [] := if_pos h
  cases hm : b.legal_moves color with
  | nil =>
    simp only [AI.choose, h0, hm]
    refine ⟨Nat.zero_le _, ?_⟩
    simp only [List.length_nil]
    omega
  | cons m0 rest =>
    cases ho : orderMoves ([] : TTable) b color (m0 :: rest) with
    | nil =>
      simp only [AI.choose, h0, hm, ho]
      refine ⟨Nat.zero_le _, ?_⟩
      simp only [List.length_nil]
      omega
    | cons mo restOrd =>
      simp only [AI.choose, h0, hm, ho]
      have hst0 : ({ table := ([] : TTable), nodes := 0, cap := ai.max_table } :
          SearchState).cap = ai.max_table := rfl
      have hst0l : ({ table := ([] : TTable), nodes := 0, cap := ai.max_table } :
          SearchState).table.length ≤ ai.max_table := Nat.zero_le _
      have hr0 := negamax_table_inv ai.max_table (2 * ai.max_depth + 2)
        (applyMoveB b mo color) (opp color) (ai.max_depth - 1) (-INF) INF
        { table := ([] : TTable), nodes := 0, cap := ai.max_table } hst0 hst0l
      have hres := searchRoot_table_inv ai.max_table (2 * ai.max_depth + 2) b color
        ai.max_depth restOrd
        (negamax (2 * ai.max_depth + 2) (applyMoveB b mo color) (opp color)
          (ai.max_depth - 1) (-INF) INF
          { table := ([] : TTable), nodes := 0, cap := ai.max_table }).2
        (-(negamax (2 * ai.max_depth + 2) (applyMoveB b mo color) (opp color)
          (ai.max_depth - 1) (-INF) INF
          { table := ([] : TTable), nodes := 0, cap := ai.max_table }).1)
        [mo] hr0.2 hr0.1
      have h1 := hres.1
      exact ⟨h1, by omega⟩

/-- Witness for C6: an AI whose table holds 15000 dummy entries (cap 10000)
searches a full board; the call clears the table, leaving it at or below the
cap and strictly smaller than before. -/
theorem transposition_table_capped_witness :
    MAX_TRANSPOSITION_SIZE < overfullAI.transposition_table.length ∧
    (overfullAI.choose fullBoard4 BLACK).1.transposition_table.length ≤ MAX_TRANSPOSITION_SIZE ∧
    (overfullAI.choose fullBoard4 BLACK).1.transposition_table.length <
      overfullAI.transposition_table.length := by
  have hlen : overfullAI.transposition_table.length = 15000 := List.length_replicate _ _
  have hpre : overfullAI.max_table < overfullAI.transposition_table.length := by
    rw [hlen]; decide
  exact ⟨by rw [hlen]; decide,
    (transposition_table_capped overfullAI fullBoard4 BLACK hpre).1,
    (transposition_table_capped overfullAI fullBoard4 BLACK hpre).2⟩

/-- C7: on the freshly constructed 8×8 board, Black's legal moves are exactly
(2,3), (3,2), (4,5), (5,4), produced in that row-major scan order, and each
move flips exactly one cell. -/
theorem initial_legal_moves_8 :
    ((Board.new 8).legal_moves BLACK).map (fun m => (m.row, m.col)) =
      [(2, 3), (3, 2), (4, 5), (5, 4)] ∧
    ((Board.new 8).legal_moves BLACK).all (fun m => m.flips.length == 1) = true := by
  constructor
  · decide
  · decide

theorem nodesAtDepth_one : nodesAtDepth 1 = 3 := by decide

theorem nodesAtDepth_two : nodesAtDepth 2 = 10 := by decide

theorem nodesAtDepth_three : nodesAtDepth 3 = 15 := by decide

theorem nodesAtDepth_four : nodesAtDepth 4 = 15 := by decide

theorem nodesAtDepth_five : nodesAtDepth 5 = 15 := by decide

theorem nodesAtDepth_six : nodesAtDepth 6 = 15 := by decide

/-- C8: on the fixed non-trivial position `endgamePos`, the node
count reported by a fresh AI's `choose` is monotonically non-decreasing in
`max_depth` over the supported depth range [1,6]; and the reported count is
independent of the counter's pre-call value, because `nodes_searched` is
reset to 0 at the start of each `choose` call. -/
theorem nodes_searched_monotone :
    (∀ d1 d2 : Nat, MIN_AI_DEPTH ≤ d1 → d1 ≤ d2 → d2 ≤ MAX_AI_DEPTH →
      nodesAtDepth d1 ≤ nodesAtDepth d2) ∧
    (∀ (ai : AI) (b : Board) (color : Nat) (n1 n2 : Nat),
      (({ ai with nodes_searched := n1 } : AI).choose b color).1.nodes_searched =
      (({ ai with nodes_searched := n2 } : AI).choose b color).1.nodes_searched) := by
  constructor
  · intro d1 d2 h1 h12 h2
    have hb1 : 1 ≤ d1 := h1
    have hb2 : d2 ≤ 6 := h2
    have hb3 : d1 ≤ 6 := le_trans h12 hb2
    interval_cases d1 <;> interval_cases d2 <;>
      simp_all [nodesAtDepth_one, nodesAtDepth_two, nodesAtDepth_three,
        nodesAtDepth_four, nodesAtDepth_five, nodesAtDepth_six]
  · intro ai b color n1 n2
    cases ai
    rfl

/-- Witness for C8: depth 1 and depth 3 are in the supported range, and the
deeper fresh AI searches at least as many nodes on the fixed position. -/
theorem nodes_searched_monotone_witness :
    MIN_AI_DEPTH ≤ 1 ∧ (1 : Nat) ≤ 3 ∧ 3 ≤ MAX_AI_DEPTH ∧
    nodesAtDepth 1 ≤ nodesAtDepth 3 :=
  ⟨by decide, by decide, by decide,
   nodes_searched_monotone.1 1 3 (by decide) (by decide) (by decide)⟩
